import Mathlib

/-!
Formal model of the hub-user-service authentication core.

Go strings are modeled as lists of characters (`Str`); the source operates on
ASCII data throughout, so byte length and rune iteration coincide with list
length and list traversal.  Go `time.Time` values and `time.Duration` values
are modeled as integers (one abstract tick; for the user entity the constant
`thirtyMinutes` stands for Go's `30 * time.Minute`, for JWT claims the unit is
Unix seconds as produced by `Unix()`).  Functions that mutate a struct through
a pointer receiver are modeled as functions returning the updated struct, with
the current time passed explicitly.

The JWT wire format (an external dependency, `github.com/golang-jwt/jwt` v3)
is modeled by a concrete injective serialization: the three token sections
(header, claims, signature) are joined by a dot, string data inside a section
is hex encoded, and claim fields are joined by a dash.  HMAC-SHA256 is modeled
as a concrete recomputable tag function; validation recomputes the tag exactly
as HMAC verification does, so all claims about parse/validate behavior are
insensitive to the particular tag function.  bcrypt (also an external
dependency) is modeled as a deterministic injective tagging function, which
captures the hash properties stated in the specification: the hash of a
password never equals the password, and comparison succeeds exactly on the
hashed password.
-/

/-- Go strings modeled as lists of characters. -/
abbrev Str := List Char

/-! ## Hex codec used by the modeled JWT compact serialization -/

/-- Lowercase hex digit for a value below 16 (mirrors base64url in that the
alphabet is disjoint from `.`, `-` and uppercase letters). -/
def hexDigitChar (n : Nat) : Char :=
  if n < 10 then Char.ofNat (48 + n) else Char.ofNat (87 + n)

/-- Value of a lowercase hex digit, or `none` for characters outside the
alphabet. -/
def hexVal (c : Char) : Option Nat :=
  if 48 ≤ c.toNat ∧ c.toNat ≤ 57 then some (c.toNat - 48)
  else if 97 ≤ c.toNat ∧ c.toNat ≤ 102 then some (c.toNat - 87)
  else none

/-- Membership in the lowercase hex alphabet. -/
def isHexDigitChar (c : Char) : Prop :=
  (48 ≤ c.toNat ∧ c.toNat ≤ 57) ∨ (97 ≤ c.toNat ∧ c.toNat ≤ 102)

instance (c : Char) : Decidable (isHexDigitChar c) := by
  unfold isHexDigitChar; infer_instance

/-- Fixed-width encoding of one character as six hex digits of its code
point. -/
def encodeChar (c : Char) : Str :=
  [hexDigitChar (c.toNat / 1048576 % 16), hexDigitChar (c.toNat / 65536 % 16),
   hexDigitChar (c.toNat / 4096 % 16), hexDigitChar (c.toNat / 256 % 16),
   hexDigitChar (c.toNat / 16 % 16), hexDigitChar (c.toNat % 16)]

/-- Section encoding of a string: each character becomes six hex digits. -/
def encStr : Str → Str
  | [] => []
  | c :: rest => encodeChar c ++ encStr rest

/-- Section decoding: consumes six hex digits per character, fails on any
other shape. -/
def decStr : Str → Option Str
  | [] => some []
  | a :: b :: c :: d :: e :: f :: rest =>
    match hexVal a, hexVal b, hexVal c, hexVal d, hexVal e, hexVal f with
    | some va, some vb, some vc, some vd, some ve, some vf =>
      match decStr rest with
      | some rest' =>
        some (Char.ofNat (va * 1048576 + vb * 65536 + vc * 4096 +
          vd * 256 + ve * 16 + vf) :: rest')
      | none => none
    | _, _, _, _, _, _ => none
  | _ => none

/-- Variable-width hex encoding of a natural number, least significant digit
first. -/
def encNat (n : Nat) : Str :=
  (Nat.digits 16 n).map hexDigitChar

/-- Hex values of every character of a string, failing outside the
alphabet. -/
def hexVals : Str → Option (List Nat)
  | [] => some []
  | c :: rest =>
    match hexVal c, hexVals rest with
    | some v, some vs => some (v :: vs)
    | _, _ => none

/-- Decoding of a variable-width hex number. -/
def decNat (s : Str) : Option Nat :=
  (hexVals s).map fun ds => Nat.ofDigits 16 ds

/-- Signed integer encoding: a sign marker followed by the hex magnitude. -/
def encInt (i : Int) : Str :=
  if i < 0 then 'n' :: encNat (-i).toNat else 'p' :: encNat i.toNat

/-- Signed integer decoding. -/
def decInt : Str → Option Int
  | [] => none
  | c :: rest =>
    if c = 'p' then (decNat rest).map fun n => (n : Int)
    else if c = 'n' then (decNat rest).map fun n => -(n : Int)
    else none

/-! ## Splitting on a separator character -/

/-- Splitting a string at every occurrence of a separator character; always
returns at least one group. -/
def splitOnChar (sep : Char) : Str → List Str
  | [] => [[]]
  | c :: rest =>
    match splitOnChar sep rest with
    | [] => [[c]]
    | g :: gs => if c = sep then [] :: g :: gs else (c :: g) :: gs

theorem splitOnChar_ne_nil (sep : Char) (s : Str) : splitOnChar sep s ≠ [] := by
  cases s with
  | nil => simp [splitOnChar]
  | cons c rest =>
    simp only [splitOnChar]
    split
    · simp
    · split <;> simp

theorem splitOnChar_of_not_mem (sep : Char) (s : Str) (h : sep ∉ s) :
    splitOnChar sep s = [s] := by
  induction s with
  | nil => rfl
  | cons c rest ih =>
    simp only [List.mem_cons, not_or] at h
    simp only [splitOnChar, ih h.2]
    rw [if_neg (fun hc => h.1 hc.symm)]

theorem splitOnChar_append (sep : Char) (a b : Str) (h : sep ∉ a) :
    splitOnChar sep (a ++ sep :: b) = a :: splitOnChar sep b := by
  induction a with
  | nil =>
    simp only [List.nil_append, splitOnChar]
    rcases hb : splitOnChar sep b with _ | ⟨g, gs⟩
    · exact absurd hb (splitOnChar_ne_nil sep b)
    · simp [hb]
  | cons c rest ih =>
    simp only [List.mem_cons, not_or] at h
    have hcs : ¬ c = sep := fun hc => h.1 hc.symm
    simp only [List.cons_append, splitOnChar, List.append_eq, ih h.2, hcs, if_false]

/-! ## Codec roundtrip lemmas -/

theorem hexVal_hexDigitChar (d : Nat) (hd : d < 16) :
    hexVal (hexDigitChar d) = some d := by
  interval_cases d <;> rfl

theorem isHexDigitChar_hexDigitChar (d : Nat) (hd : d < 16) :
    isHexDigitChar (hexDigitChar d) := by
  interval_cases d <;> decide

theorem char_toNat_lt (c : Char) : c.toNat < 16777216 := by
  have h : c.val.toNat.isValidChar := c.valid
  have he : c.toNat = c.val.toNat := rfl
  rcases h with h1 | ⟨h1, h2⟩ <;> omega

theorem decStr_append_encodeChar (c : Char) (rest : Str) :
    decStr (encodeChar c ++ rest) = (decStr rest).map (c :: ·) := by
  have hc := char_toNat_lt c
  have h16 : ∀ n : Nat, n % 16 < 16 := fun n => Nat.mod_lt _ (by norm_num)
  simp only [encodeChar, List.cons_append, List.append_eq, List.nil_append, decStr,
    hexVal_hexDigitChar _ (h16 _)]
  have hval : c.toNat / 1048576 % 16 * 1048576 + c.toNat / 65536 % 16 * 65536 +
      c.toNat / 4096 % 16 * 4096 + c.toNat / 256 % 16 * 256 +
      c.toNat / 16 % 16 * 16 + c.toNat % 16 = c.toNat := by omega
  rw [hval, Char.ofNat_toNat]
  cases decStr rest <;> rfl

theorem decStr_encStr (s : Str) : decStr (encStr s) = some s := by
  induction s with
  | nil => rfl
  | cons c rest ih => rw [encStr, decStr_append_encodeChar, ih]; rfl

theorem mem_encodeChar {x c : Char} (h : x ∈ encodeChar c) : isHexDigitChar x := by
  have h16 : ∀ n : Nat, n % 16 < 16 := fun n => Nat.mod_lt _ (by norm_num)
  simp only [encodeChar, List.mem_cons, List.not_mem_nil, or_false] at h
  rcases h with h | h | h | h | h | h <;>
    exact h ▸ isHexDigitChar_hexDigitChar _ (h16 _)

theorem mem_encStr {x : Char} {s : Str} (h : x ∈ encStr s) : isHexDigitChar x := by
  induction s with
  | nil => simp [encStr] at h
  | cons c rest ih =>
    rw [encStr, List.mem_append] at h
    rcases h with h | h
    · exact mem_encodeChar h
    · exact ih h

theorem mem_encNat {x : Char} {n : Nat} (h : x ∈ encNat n) : isHexDigitChar x := by
  rw [encNat, List.mem_map] at h
  obtain ⟨d, hd, hx⟩ := h
  exact hx ▸ isHexDigitChar_hexDigitChar d (Nat.digits_lt_base (by norm_num) hd)

theorem mem_encInt {x : Char} {i : Int} (h : x ∈ encInt i) :
    x = 'p' ∨ x = 'n' ∨ isHexDigitChar x := by
  rw [encInt] at h
  split at h <;> rw [List.mem_cons] at h <;> rcases h with h | h
  · exact Or.inr (Or.inl h)
  · exact Or.inr (Or.inr (mem_encNat h))
  · exact Or.inl h
  · exact Or.inr (Or.inr (mem_encNat h))

theorem hex_ne_of_isHexDigitChar {x y : Char} (hx : isHexDigitChar x)
    (hy : ¬ isHexDigitChar y) : x ≠ y := fun h => hy (h ▸ hx)

theorem not_dot_mem_encStr (s : Str) : '.' ∉ encStr s := fun h =>
  absurd (mem_encStr h) (by decide)

theorem not_dash_mem_encStr (s : Str) : '-' ∉ encStr s := fun h =>
  absurd (mem_encStr h) (by decide)

theorem not_dot_mem_encNat (n : Nat) : '.' ∉ encNat n := fun h =>
  absurd (mem_encNat h) (by decide)

theorem not_dash_mem_encInt (i : Int) : '-' ∉ encInt i := fun h => by
  rcases mem_encInt h with h1 | h1 | h1
  · exact absurd h1 (by decide)
  · exact absurd h1 (by decide)
  · exact absurd h1 (by decide)

theorem not_dot_mem_encInt (i : Int) : '.' ∉ encInt i := fun h => by
  rcases mem_encInt h with h1 | h1 | h1
  · exact absurd h1 (by decide)
  · exact absurd h1 (by decide)
  · exact absurd h1 (by decide)

theorem hexVals_map_hexDigitChar (l : List Nat) (h : ∀ d ∈ l, d < 16) :
    hexVals (l.map hexDigitChar) = some l := by
  induction l with
  | nil => rfl
  | cons d rest ih =>
    rw [List.map_cons, hexVals, hexVal_hexDigitChar d (h d (by simp)),
      ih (fun x hx => h x (by simp [hx]))]

theorem decNat_encNat (n : Nat) : decNat (encNat n) = some n := by
  rw [decNat, encNat,
    hexVals_map_hexDigitChar _ (fun d hd => Nat.digits_lt_base (by norm_num) hd)]
  simp [Nat.ofDigits_digits]

theorem decInt_encInt (i : Int) : decInt (encInt i) = some i := by
  rcases le_or_lt 0 i with hpos | hneg
  · rw [encInt, if_neg (by omega), decInt, if_pos rfl, decNat_encNat]
    show some ((i.toNat : Nat) : Int) = some i
    congr 1
    omega
  · rw [encInt, if_pos hneg, decInt, if_neg (by decide), if_pos rfl, decNat_encNat]
    show some (-(((-i).toNat : Nat) : Int)) = some i
    congr 1
    omega

/-! ## JWT token model

Translated from `internal/domain/service/token_service.go` (typed claims) and
`internal/auth/token/token_service.go` (legacy validator), with the
`github.com/golang-jwt/jwt` v3 library modeled as described in the header
comment. -/

/-- Claims stored in JWT tokens; mirrors `TokenClaims` (UserID, Email) plus
the `jwt.StandardClaims` fields the source sets: ExpiresAt, IssuedAt, Issuer
(Unix seconds; 0 encodes an absent claim as in the Go zero value). -/
structure TokenClaims where
  UserID : Str
  Email : Str
  ExpiresAt : Int
  IssuedAt : Int
  Issuer : Str
deriving DecidableEq

/-- A decoded JWT: a header carrying the signing algorithm name, a payload of
claims, and a signature tag. -/
structure Jwt where
  alg : Str
  claims : TokenClaims
  sig : Nat
deriving DecidableEq

/-- Algorithms of the symmetric HMAC family (`jwt.SigningMethodHMAC`). -/
def hmacAlgs : List Str := ["HS256".data, "HS384".data, "HS512".data]

/-- Algorithm names registered with the jwt library
(`jwt.GetSigningMethod`). -/
def knownAlgs : List Str :=
  hmacAlgs ++ ["RS256".data, "RS384".data, "RS512".data, "ES256".data,
    "ES384".data, "ES512".data, "PS256".data, "PS384".data, "PS512".data,
    "none".data]

/-- Payload section of the compact serialization: the five claim fields,
encoded and joined by dashes. -/
def encClaims (c : TokenClaims) : Str :=
  encStr c.UserID ++ '-' :: (encStr c.Email ++ '-' :: (encInt c.ExpiresAt ++
    '-' :: (encInt c.IssuedAt ++ '-' :: encStr c.Issuer)))

/-- Signing input of a JWT: header section and payload section joined by a
dot, as in the compact serialization. -/
def signingInput (alg : Str) (c : TokenClaims) : Str :=
  encStr alg ++ '.' :: encClaims c

/-- Model of HMAC-SHA256: a concrete tag computed from key and message.
Verification recomputes the tag, exactly as the library does. -/
def hmacSHA256 (key msg : Str) : Nat :=
  (key ++ '|' :: msg).foldl (fun a c => a * 1114112 + c.toNat + 1) 0

/-- Compact serialization of a JWT: header, payload and signature sections
joined by dots. -/
def serializeJwt (t : Jwt) : Str :=
  signingInput t.alg t.claims ++ '.' :: encNat t.sig

/-- Decoding of the payload section. -/
def decClaims (s : Str) : Option TokenClaims :=
  match splitOnChar '-' s with
  | [u, e, x, i, iss] =>
    match decStr u, decStr e, decInt x, decInt i, decStr iss with
    | some uv, some ev, some xv, some iv, some issv =>
      some ⟨uv, ev, xv, iv, issv⟩
    | _, _, _, _, _ => none
  | _ => none

/-- Parse of the compact serialization into a decoded JWT; fails on any
malformed input. -/
def parseJwt (s : Str) : Option Jwt :=
  match splitOnChar '.' s with
  | [h, c, g] =>
    match decStr h, decClaims c, decNat g with
    | some alg, some claims, some sig => some ⟨alg, claims, sig⟩
    | _, _, _ => none
  | _ => none

theorem not_dot_mem_encClaims (c : TokenClaims) : '.' ∉ encClaims c := by
  intro h
  rw [encClaims] at h
  simp only [List.mem_append, List.mem_cons] at h
  rcases h with h | h | h | h | h | h | h | h | h
  · exact not_dot_mem_encStr _ h
  · exact absurd h (by decide)
  · exact not_dot_mem_encStr _ h
  · exact absurd h (by decide)
  · exact not_dot_mem_encInt _ h
  · exact absurd h (by decide)
  · exact not_dot_mem_encInt _ h
  · exact absurd h (by decide)
  · exact not_dot_mem_encStr _ h

theorem decClaims_encClaims (c : TokenClaims) : decClaims (encClaims c) = some c := by
  rw [decClaims, encClaims,
    splitOnChar_append '-' _ _ (not_dash_mem_encStr c.UserID),
    splitOnChar_append '-' _ _ (not_dash_mem_encStr c.Email),
    splitOnChar_append '-' _ _ (not_dash_mem_encInt c.ExpiresAt),
    splitOnChar_append '-' _ _ (not_dash_mem_encInt c.IssuedAt),
    splitOnChar_of_not_mem '-' _ (not_dash_mem_encStr c.Issuer)]
  simp [decStr_encStr, decInt_encInt]

theorem parseJwt_serializeJwt (t : Jwt) : parseJwt (serializeJwt t) = some t := by
  rw [parseJwt, serializeJwt, signingInput, List.append_assoc, List.cons_append,
    splitOnChar_append '.' _ _ (not_dot_mem_encStr t.alg),
    splitOnChar_append '.' _ _ (not_dot_mem_encClaims t.claims),
    splitOnChar_of_not_mem '.' _ (not_dot_mem_encNat t.sig)]
  simp [decStr_encStr, decClaims_encClaims, decNat_encNat]

/-! ## Token service operations -/

/-- Configuration of the domain token service: signing secret and token
lifetime, as injected by `NewTokenService`. -/
structure TokenService where
  secretKey : Str
  tokenExpiration : Int

/-- Issuer string set by `CreateToken`. -/
def issuerName : Str := "hub-user-service".data

/-- Claims built by `CreateToken` for a user at issuance time `now`. -/
def createdClaims (s : TokenService) (userID email : Str) (now : Int) : TokenClaims :=
  ⟨userID, email, now + s.tokenExpiration, now, issuerName⟩

/-- Token built and signed by `CreateToken`: HS256 header, the created
claims, and the HMAC tag over the signing input. -/
def createdJwt (s : TokenService) (userID email : Str) (now : Int) : Jwt :=
  ⟨"HS256".data, createdClaims s userID email now,
    hmacSHA256 s.secretKey (signingInput "HS256".data (createdClaims s userID email now))⟩

/-- CreateToken from `internal/domain/service/token_service.go`, with the
current Unix time passed explicitly in place of `time.Now()`. -/
def TokenService.CreateToken (s : TokenService) (userID email : Str) (now : Int) :
    Except Str Str :=
  if userID = [] then .error "userID cannot be empty".data
  else if email = [] then .error "email cannot be empty".data
  else .ok (serializeJwt (createdJwt s userID email now))

/-- StandardClaims.Valid of jwt v3 restricted to the fields the source sets:
the expiry claim passes when unset (0) or `now ≤ exp`, the issued-at claim
passes when unset or `iat ≤ now`. -/
def claimsValid (c : TokenClaims) (now : Int) : Bool :=
  (c.ExpiresAt == 0 || decide (now ≤ c.ExpiresAt)) &&
  (c.IssuedAt == 0 || decide (c.IssuedAt ≤ now))

/-- Checks performed by jwt.ParseWithClaims on a decoded token, with the
keyfunc of the domain `ValidateToken`: the method is looked up from the
header, the keyfunc rejects any method that is not
`*jwt.SigningMethodHMAC`, then claims are validated and the signature
verified by recomputing the tag. -/
def validateParsedHMAC (secret : Str) (tok : Jwt) (now : Int) : Except Str TokenClaims :=
  if tok.alg ∉ knownAlgs then .error "signing method (alg) is unavailable".data
  else if tok.alg ∉ hmacAlgs then .error "unexpected signing method".data
  else if ¬ claimsValid tok.claims now then .error "token is expired".data
  else if tok.sig ≠ hmacSHA256 secret (signingInput tok.alg tok.claims) then
    .error "signature is invalid".data
  else .ok tok.claims

/-- jwt.ParseWithClaims as called by the domain `ValidateToken`. -/
def parseWithClaimsHMAC (secret : Str) (s : Str) (now : Int) : Except Str TokenClaims :=
  match parseJwt s with
  | none => .error "token contains an invalid number of segments".data
  | some tok => validateParsedHMAC secret tok now

/-- Exact 7-character authorization-scheme marker checked by the domain
validator. -/
def bearerTag : Str := "Bearer ".data

/-- Conditional removal of the marker, from `ValidateToken`: stripped only
when the input is strictly longer than 7 and its first 7 characters equal
the marker. -/
def stripBearer (tokenString : Str) : Str :=
  if 7 < tokenString.length ∧ tokenString.take 7 = bearerTag then
    tokenString.drop 7
  else tokenString

/-- ValidateToken from `internal/domain/service/token_service.go`. -/
def TokenService.ValidateToken (s : TokenService) (tokenString : Str) (now : Int) :
    Except Str TokenClaims :=
  if tokenString = [] then .error "token string cannot be empty".data
  else
    match parseWithClaimsHMAC s.secretKey (stripBearer tokenString) now with
    | .error e => .error ("failed to parse token: ".data ++ e)
    | .ok claims => .ok claims

/-- jwt.Parse as called by the legacy validator of
`internal/auth/token/token_service.go`, whose keyfunc returns the secret
bytes without any algorithm check: a known non-HMAC method still fails, at
signature verification, because the byte key has the wrong type for the
RSA/ECDSA/none methods. -/
def validateParsedLegacy (secret : Str) (tok : Jwt) (now : Int) : Except Str TokenClaims :=
  if tok.alg ∉ knownAlgs then .error "signing method (alg) is unavailable".data
  else if ¬ claimsValid tok.claims now then .error "token is expired".data
  else if tok.alg ∉ hmacAlgs then .error "key is of invalid type".data
  else if tok.sig ≠ hmacSHA256 secret (signingInput tok.alg tok.claims) then
    .error "signature is invalid".data
  else .ok tok.claims

/-- jwt.Parse as called by the legacy validator. -/
def parseLegacyKeyfunc (secret : Str) (s : Str) (now : Int) : Except Str TokenClaims :=
  match parseJwt s with
  | none => .error "token contains an invalid number of segments".data
  | some tok => validateParsedLegacy secret tok now

/-- parseToken and ValidateToken of the legacy validator: the input is
sliced as `token[len("Bearer "):]` unconditionally; in Go that slice panics
when the input is shorter than 7 bytes, modeled as `none`. -/
def LegacyValidateToken (secret : Str) (tokenString : Str) (now : Int) :
    Option (Except Str TokenClaims) :=
  if tokenString.length < 7 then none
  else some (parseLegacyKeyfunc secret (tokenString.drop 7) now)

/-! ## Token lemmas -/

theorem serializeJwt_ne_nil (t : Jwt) : serializeJwt t ≠ [] := by
  simp [serializeJwt, signingInput]

theorem mem_encClaims {x : Char} {c : TokenClaims} (h : x ∈ encClaims c) :
    isHexDigitChar x ∨ x = '-' ∨ x = 'p' ∨ x = 'n' := by
  rw [encClaims] at h
  simp only [List.mem_append, List.mem_cons] at h
  rcases h with h | h | h | h | h | h | h | h | h
  · exact Or.inl (mem_encStr h)
  · exact Or.inr (Or.inl h)
  · exact Or.inl (mem_encStr h)
  · exact Or.inr (Or.inl h)
  · rcases mem_encInt h with h1 | h1 | h1
    · exact Or.inr (Or.inr (Or.inl h1))
    · exact Or.inr (Or.inr (Or.inr h1))
    · exact Or.inl h1
  · exact Or.inr (Or.inl h)
  · rcases mem_encInt h with h1 | h1 | h1
    · exact Or.inr (Or.inr (Or.inl h1))
    · exact Or.inr (Or.inr (Or.inr h1))
    · exact Or.inl h1
  · exact Or.inr (Or.inl h)
  · exact Or.inl (mem_encStr h)

theorem mem_serializeJwt {x : Char} {t : Jwt} (h : x ∈ serializeJwt t) :
    isHexDigitChar x ∨ x = '.' ∨ x = '-' ∨ x = 'p' ∨ x = 'n' := by
  rw [serializeJwt, signingInput] at h
  simp only [List.append_assoc, List.mem_append, List.mem_cons] at h
  rcases h with h | (h | h) | (h | h)
  · exact Or.inl (mem_encStr h)
  · exact Or.inr (Or.inl h)
  · rcases mem_encClaims h with h1 | h1 | h1 | h1
    · exact Or.inl h1
    · exact Or.inr (Or.inr (Or.inl h1))
    · exact Or.inr (Or.inr (Or.inr (Or.inl h1)))
    · exact Or.inr (Or.inr (Or.inr (Or.inr h1)))
  · exact Or.inr (Or.inl h)
  · exact Or.inl (mem_encNat h)

theorem stripBearer_serializeJwt (t : Jwt) :
    stripBearer (serializeJwt t) = serializeJwt t := by
  rw [stripBearer, if_neg]
  rintro ⟨hlen, htake⟩
  have hB : 'B' ∈ serializeJwt t := by
    have h1 : 'B' ∈ (serializeJwt t).take 7 := by rw [htake]; decide
    exact List.take_subset _ _ h1
  rcases mem_serializeJwt hB with h | h | h | h | h
  · exact absurd h (by decide)
  · exact absurd h (by decide)
  · exact absurd h (by decide)
  · exact absurd h (by decide)
  · exact absurd h (by decide)

theorem stripBearer_bearer_append (t : Str) (ht : t ≠ []) :
    stripBearer (bearerTag ++ t) = t := by
  have h7 : bearerTag.length = 7 := rfl
  have hc : 7 < (bearerTag ++ t).length ∧ (bearerTag ++ t).take 7 = bearerTag := by
    constructor
    · rw [List.length_append, h7]
      have := List.length_pos.mpr ht
      omega
    · rw [← h7, List.take_left]
  rw [stripBearer, if_pos hc, ← h7, List.drop_left]

theorem parseWithClaimsHMAC_serialized (secret : Str) (tok : Jwt) (now : Int) :
    parseWithClaimsHMAC secret (serializeJwt tok) now =
      validateParsedHMAC secret tok now := by
  rw [parseWithClaimsHMAC, parseJwt_serializeJwt]

theorem validateParsedHMAC_ok (secret : Str) (tok : Jwt) (now : Int)
    (halg : tok.alg = "HS256".data)
    (hval : claimsValid tok.claims now = true)
    (hsig : tok.sig = hmacSHA256 secret (signingInput tok.alg tok.claims)) :
    validateParsedHMAC secret tok now = .ok tok.claims := by
  rw [validateParsedHMAC, if_neg (by rw [halg]; decide), if_neg (by rw [halg]; decide),
    if_neg (by simp [hval]), if_neg (by simp [hsig])]

/-! ## Password value object

Validation is translated from
`internal/login/domain/valueobject/password.go` (this is the variant whose
rule list the specification describes: max length 60, weak-pattern and
sequential checks).  The character-class probes model the ASCII fragment of
Go's `unicode` predicates and of the two regular expressions; all inputs of
interest are ASCII. -/

/-- Character class of the `hasUppercase` regular expression `[A-Z]`. -/
def isUpperAscii (c : Char) : Bool := 65 ≤ c.toNat && c.toNat ≤ 90

/-- ASCII fragment of `unicode.IsLower`. -/
def unicodeIsLower (c : Char) : Bool := 97 ≤ c.toNat && c.toNat ≤ 122

/-- ASCII fragment of `unicode.IsDigit`. -/
def unicodeIsDigit (c : Char) : Bool := 48 ≤ c.toNat && c.toNat ≤ 57

/-- ASCII fragment of `unicode.ToLower`. -/
def unicodeToLower (c : Char) : Char :=
  if 65 ≤ c.toNat && c.toNat ≤ 90 then Char.ofNat (c.toNat + 32) else c

/-- Character class of the `hasSpecialChar` regular expression; codes 123,
125, 39, 34, 92 and 96 are the brace, apostrophe, quote, backslash and
backtick characters. -/
def specialChars : Str :=
  "!@#$%^&*()_+-=[]".data ++ [Char.ofNat 123, Char.ofNat 125] ++ ";".data ++
    [Char.ofNat 39] ++ ":".data ++ [Char.ofNat 34, Char.ofNat 92] ++
    "|,.<>/?~".data ++ [Char.ofNat 96]

/-- Membership test of `hasSpecialChar.MatchString` per character. -/
def isSpecialGoChar (c : Char) : Bool := specialChars.contains c

/-- Error messages of `validatePassword`, verbatim from the source. -/
def errPasswordEmpty : Str := "password cannot be empty".data

def errPasswordMinLen : Str := "password must be at least 8 characters long".data

def errPasswordMaxLen : Str := "password is too long (maximum 60 characters)".data

def errPasswordUpper : Str := "password must contain at least one uppercase letter".data

def errPasswordLower : Str := "password must contain at least one lowercase letter".data

def errPasswordDigit : Str := "password must contain at least one digit".data

def errPasswordSpecial : Str :=
  "password must contain at least one special character (!@#$%^&*()_+-=[]".data ++
    [Char.ofNat 123, Char.ofNat 125] ++ ":;".data ++ [Char.ofNat 34, Char.ofNat 39] ++
    "|,.<>?/~".data ++ [Char.ofNat 96, ')']

def errPasswordWeak : Str := "password contains a common weak pattern".data

def errPasswordSequential : Str := "password cannot be a simple sequence".data

/-- Weak-pattern list of `checkWeakPatterns`, in source order. -/
def weakPatterns : List Str :=
  ["password".data, "123456".data, "qwerty".data, "abc123".data, "admin".data,
   "user".data, "login".data, "welcome".data, "changeme".data, "default".data,
   "guest".data, "12345678".data, "87654321".data, "qwertyui".data, "asdfghjk".data]

/-- isSequential from the source: strictly ascending or strictly descending
byte sequences of length at least 4; byte arithmetic wraps modulo 256. -/
def isSequential (password : Str) : Bool :=
  if password.length < 4 then false
  else
    ((password.zip password.tail).all fun pr => pr.2.toNat == (pr.1.toNat + 1) % 256) ||
    ((password.zip password.tail).all fun pr => pr.2.toNat == (pr.1.toNat + 255) % 256)

/-- checkWeakPatterns from the source. -/
def checkWeakPatterns (password : Str) : Option Str :=
  let lowerPassword := password.map unicodeToLower
  if weakPatterns.contains lowerPassword then some errPasswordWeak
  else if isSequential password then some errPasswordSequential
  else none

/-- validatePassword from the source; `some msg` is the returned error,
`none` is success. -/
def validatePassword (password : Str) : Option Str :=
  if password = [] then some errPasswordEmpty
  else if password.length < 8 then some errPasswordMinLen
  else if 60 < password.length then some errPasswordMaxLen
  else if !password.any isUpperAscii then some errPasswordUpper
  else if !password.any unicodeIsLower then some errPasswordLower
  else if !password.any unicodeIsDigit then some errPasswordDigit
  else if !password.any isSpecialGoChar then some errPasswordSpecial
  else checkWeakPatterns password

/-- Modelled from the spec: the eight validation rules named by the claimed
fixed order (length-min, length-max, uppercase, lowercase, digit,
special-char, weak-pattern, sequential-pattern), each paired with the
corresponding source message.  This is the claim-side reference semantics
compared against `validatePassword`. -/
def claimedPasswordRules : List ((Str → Bool) × Str) :=
  [(fun p => decide (p.length < 8), errPasswordMinLen),
   (fun p => decide (60 < p.length), errPasswordMaxLen),
   (fun p => !p.any isUpperAscii, errPasswordUpper),
   (fun p => !p.any unicodeIsLower, errPasswordLower),
   (fun p => !p.any unicodeIsDigit, errPasswordDigit),
   (fun p => !p.any isSpecialGoChar, errPasswordSpecial),
   (fun p => weakPatterns.contains (p.map unicodeToLower), errPasswordWeak),
   (fun p => isSequential p, errPasswordSequential)]

/-- Message of the first failing rule of the claimed fixed order, or `none`
when all rules pass. -/
def firstFailingRuleMessage (p : Str) : Option Str :=
  (claimedPasswordRules.find? fun r => r.1 p).map fun r => r.2

/-- Password value object of the `model` package: a raw or already-hashed
string value. -/
structure Password where
  value : Str
deriving DecidableEq

/-- Model of `bcrypt.GenerateFromPassword` as a deterministic injective
tagging function (see the header comment). -/
def bcryptGenerate (plain : Str) : Str := "$2a$10$".data ++ plain

/-- Model of `bcrypt.CompareHashAndPassword` returning nil: succeeds exactly
when the hash argument is the hash of the plain argument. -/
def bcryptCompare (hash plain : Str) : Bool := decide (hash = bcryptGenerate plain)

/-- CompareWithHash from `internal/domain/model/password.go`: the argument
is passed to bcrypt in hash position and the receiver's stored value in
plaintext position. -/
def Password.CompareWithHash (p : Password) (hashedPassword : Str) : Bool :=
  bcryptCompare hashedPassword p.value

/-- Hash from `internal/domain/model/password.go`. -/
def Password.Hash (p : Password) : Str := bcryptGenerate p.value

/-- NewHashedPassword from `internal/domain/model/password.go`. -/
def NewHashedPassword (hashedPassword : Str) : Password := ⟨hashedPassword⟩

/-! ## User entity

Translated from the `model` package user entity (RecordFailedLogin,
RecordSuccessfulLogin, IsLocked, CanLogin, VerifyPassword,
VerifyPasswordString, Unlock, GetEmailString). -/

/-- Go duration `30 * time.Minute` in nanoseconds. -/
def thirtyMinutes : Int := 1800000000000

/-- User entity; pointer-valued fields (`Email`, `Password`, `LastLoginAt`,
`LockedUntil`) are options, with the email value object flattened to its
string value. -/
structure User where
  ID : Str
  Email : Option Str
  Password : Option Password
  FirstName : Str
  LastName : Str
  IsActive : Bool
  EmailVerified : Bool
  CreatedAt : Int
  UpdatedAt : Int
  LastLoginAt : Option Int
  FailedLoginAttempts : Int
  LockedUntil : Option Int
deriving DecidableEq

/-- GetEmailString: empty when the email pointer is nil. -/
def User.GetEmailString (u : User) : Str :=
  match u.Email with
  | none => []
  | some e => e

/-- RecordSuccessfulLogin: reset the failed counter, clear the lock, stamp
the last login. -/
def User.RecordSuccessfulLogin (u : User) (now : Int) : User :=
  { u with LastLoginAt := some now, FailedLoginAttempts := 0,
           LockedUntil := none, UpdatedAt := now }

/-- RecordFailedLogin: increment the failed counter and, from the fifth
failure on, set the lock to thirty minutes after now. -/
def User.RecordFailedLogin (u : User) (now : Int) : User :=
  { u with FailedLoginAttempts := u.FailedLoginAttempts + 1, UpdatedAt := now,
           LockedUntil := if 5 ≤ u.FailedLoginAttempts + 1 then
               some (now + thirtyMinutes)
             else u.LockedUntil }

/-- IsLocked: true when the lock timestamp is set and now is strictly before
it. -/
def User.IsLocked (u : User) (now : Int) : Bool :=
  match u.LockedUntil with
  | none => false
  | some t => decide (now < t)

/-- Unlock: clear the lock and reset the counter. -/
def User.Unlock (u : User) (now : Int) : User :=
  { u with LockedUntil := none, FailedLoginAttempts := 0, UpdatedAt := now }

/-- CanLogin: `some msg` is the returned error, `none` is success. -/
def User.CanLogin (u : User) (now : Int) : Option Str :=
  if u.IsActive = false then some "account is inactive".data
  else if u.IsLocked now then
    some "account is temporarily locked due to failed login attempts".data
  else none

/-- VerifyPassword: compares the stored password value against itself
through CompareWithHash; the `password` argument is not used by the source
body. -/
def User.VerifyPassword (u : User) (password : Str) : Bool :=
  match u.Password with
  | none => false
  | some p => p.CompareWithHash p.value

/-- VerifyPasswordString: compares the supplied plain text through
CompareWithHash. -/
def User.VerifyPasswordString (u : User) (plainPassword : Str) : Bool :=
  match u.Password with
  | none => false
  | some p => p.CompareWithHash plainPassword

/-! ## Auth service

Translated from `internal/domain/service/auth_service.go`.  The persistence
collaborator is modeled by the lookup outcome of `FindByEmail` and an update
oracle giving the result of `userRepo.Update` on each user; the two
failed-login bookkeeping calls discard the update result (`_ = ...Update`),
which the embedding reflects by not consulting the oracle on those paths. -/

/-- Outcome of `userRepo.FindByEmail`. -/
inductive LookupResult where
  | lookupError : LookupResult
  | notFound : LookupResult
  | found : User → LookupResult

/-- Error message shared by the user-not-found, lookup-error and
wrong-password paths. -/
def invalidCredentialsMsg : Str := "invalid credentials".data

/-- Message surfaced when persisting the successful-login bookkeeping
fails. -/
def updateFailedMsg : Str := "failed to update user login information".data

/-- Authenticate: the orchestration of lookup, eligibility, password check,
bookkeeping and token issuance.  `.ok` carries the (mutated) user and the
issued token; `.error` carries the message and implies nil user and empty
token in the source. -/
def Authenticate (svc : TokenService) (lookup : LookupResult)
    (updateOk : User → Bool) (email password : Str) (now : Int) :
    Except Str (User × Str) :=
  if email = [] then .error "email cannot be empty".data
  else if password = [] then .error "password cannot be empty".data
  else
    match lookup with
    | .lookupError => .error invalidCredentialsMsg
    | .notFound => .error invalidCredentialsMsg
    | .found user =>
      match user.CanLogin now with
      | some errMsg => .error errMsg
      | none =>
        if user.VerifyPasswordString password = false then
          .error invalidCredentialsMsg
        else
          let updated := user.RecordSuccessfulLogin now
          if updateOk updated = false then .error updateFailedMsg
          else
            match svc.CreateToken updated.ID updated.GetEmailString now with
            | .error _ => .error "failed to create authentication token".data
            | .ok token => .ok (updated, token)

/-! ## Concrete fixtures used by witness theorems -/

/-- Token service fixture: some secret and a ten-minute lifetime in Unix
seconds. -/
def svcFixture : TokenService := ⟨"test-secret".data, 600⟩

/-- Base user fixture: active, unlocked, zero failed attempts, stored
password value `abc`. -/
def userFixture : User where
  ID := "u1".data
  Email := some "u1@x.com".data
  Password := some ⟨"abc".data⟩
  FirstName := "Jane".data
  LastName := "Doe".data
  IsActive := true
  EmailVerified := false
  CreatedAt := 0
  UpdatedAt := 0
  LastLoginAt := none
  FailedLoginAttempts := 0
  LockedUntil := none

/-- User fixture with four failed attempts already recorded. -/
def userFixtureFour : User := { userFixture with FailedLoginAttempts := 4 }

/-- User fixture whose stored value is a bcrypt hash. -/
def userFixtureHashed : User :=
  { userFixture with Password := some ⟨bcryptGenerate "abc".data⟩ }

/-- Token fixture signed with a non-HMAC algorithm. -/
def rs256Jwt : Jwt :=
  ⟨"RS256".data, ⟨"u1".data, "u1@x.com".data, 0, 0, issuerName⟩, 0⟩

/-! ## Claim theorems -/

/-- C1: for every user with zero failed attempts and no lock, four
RecordFailedLogin calls leave IsLocked false at any time; a fifth call sets
LockedUntil to thirty minutes after that call and makes IsLocked true at the
time of the call; one subsequent RecordSuccessfulLogin makes IsLocked false
at any time and resets the failed-attempt counter to zero. -/
theorem c1_lockout_state_machine (u : User) (hu : u.FailedLoginAttempts = 0)
    (hl : u.LockedUntil = none) (t1 t2 t3 t4 t5 t6 t t' : Int) :
    ((((u.RecordFailedLogin t1).RecordFailedLogin t2).RecordFailedLogin
        t3).RecordFailedLogin t4).IsLocked t = false ∧
    (((((u.RecordFailedLogin t1).RecordFailedLogin t2).RecordFailedLogin
        t3).RecordFailedLogin t4).RecordFailedLogin t5).LockedUntil =
      some (t5 + thirtyMinutes) ∧
    (((((u.RecordFailedLogin t1).RecordFailedLogin t2).RecordFailedLogin
        t3).RecordFailedLogin t4).RecordFailedLogin t5).IsLocked t5 = true ∧
    ((((((u.RecordFailedLogin t1).RecordFailedLogin t2).RecordFailedLogin
        t3).RecordFailedLogin t4).RecordFailedLogin t5).RecordSuccessfulLogin
        t6).IsLocked t' = false ∧
    ((((((u.RecordFailedLogin t1).RecordFailedLogin t2).RecordFailedLogin
        t3).RecordFailedLogin t4).RecordFailedLogin t5).RecordSuccessfulLogin
        t6).FailedLoginAttempts = 0 := by
  refine ⟨?_, ?_, ?_, ?_, ?_⟩ <;>
    norm_num [User.RecordFailedLogin, User.RecordSuccessfulLogin,
      User.IsLocked, hu, hl, thirtyMinutes]

theorem c1_lockout_state_machine_witness :
    (((((userFixture.RecordFailedLogin 1).RecordFailedLogin
        2).RecordFailedLogin 3).RecordFailedLogin 4).RecordFailedLogin
        5).LockedUntil = some (5 + thirtyMinutes) :=
  (c1_lockout_state_machine userFixture rfl rfl 1 2 3 4 5 6 10 20).2.1

/-- C10: for a user whose failed-attempt counter is already 4 or more, each
further RecordFailedLogin sets LockedUntil to thirty minutes after that
call, extending an existing lock forward. -/
theorem c10_failed_login_extends_lock (u : User) (now : Int)
    (h : 4 ≤ u.FailedLoginAttempts) :
    (u.RecordFailedLogin now).LockedUntil = some (now + thirtyMinutes) := by
  simp only [User.RecordFailedLogin]
  rw [if_pos (by omega)]

theorem c10_failed_login_extends_lock_witness :
    (userFixtureFour.RecordFailedLogin 100).LockedUntil =
      some (100 + thirtyMinutes) :=
  c10_failed_login_extends_lock userFixtureFour 100 (by decide)

/-- C8: VerifyPassword ignores its argument, because the source compares the
stored password value against itself via CompareWithHash; in particular,
when the stored value is a bcrypt hash, VerifyPassword is false for every
candidate. -/
theorem c8_verify_password_ignores_argument :
    (∀ (u : User) (c1 c2 : Str), u.VerifyPassword c1 = u.VerifyPassword c2) ∧
    (∀ (u : User) (q c : Str), u.Password = some ⟨bcryptGenerate q⟩ →
      u.VerifyPassword c = false) := by
  constructor
  · intro u c1 c2
    cases u.Password <;> rfl
  · intro u q c h
    simp only [User.VerifyPassword, h, Password.CompareWithHash, bcryptCompare,
      decide_eq_false_iff_not]
    intro heq
    have hlen := congrArg List.length heq
    have h7 : ("$2a$10$".data).length = 7 := rfl
    simp only [bcryptGenerate, List.length_append, h7] at hlen
    omega

theorem c8_verify_password_ignores_argument_witness :
    userFixtureHashed.VerifyPassword "abc".data = false :=
  c8_verify_password_ignores_argument.2 userFixtureHashed "abc".data "abc".data rfl

/-- C4: with non-empty email and password, the lookup-error run, the
user-not-found run and the wrong-password run (for an eligible user) all
return the identical error message `invalid credentials`, with no user and
no token. -/
theorem c4_invalid_credentials_indistinguishable (svc : TokenService)
    (email password : Str) (now : Int) (u : User) (updA updB : User → Bool)
    (lr : LookupResult) (he : email ≠ []) (hp : password ≠ [])
    (hlr : lr = .lookupError ∨ lr = .notFound)
    (hcl : u.CanLogin now = none)
    (hvp : u.VerifyPasswordString password = false) :
    Authenticate svc lr updA email password now = .error invalidCredentialsMsg ∧
    Authenticate svc (.found u) updB email password now =
      .error invalidCredentialsMsg := by
  constructor
  · rcases hlr with h | h <;> subst h <;> simp [Authenticate, he, hp]
  · simp [Authenticate, he, hp, hcl, hvp]

theorem c4_invalid_credentials_indistinguishable_witness :
    Authenticate svcFixture .notFound (fun _ => true) "a@b.c".data "pw".data 0 =
      .error invalidCredentialsMsg ∧
    Authenticate svcFixture (.found userFixture) (fun _ => true) "a@b.c".data
      "pw".data 0 = .error invalidCredentialsMsg :=
  c4_invalid_credentials_indistinguishable svcFixture "a@b.c".data "pw".data 0
    userFixture (fun _ => true) (fun _ => true) .notFound (by decide) (by decide)
    (Or.inr rfl) rfl (by decide)

/-- C5 (amended): a persistence Update failure while recording a failed
login (after an eligibility failure or a password mismatch) is swallowed —
the result does not depend on the update oracle and the original
authentication error is returned unchanged — whereas an Update failure
after recording a successful login is surfaced as the error
`failed to update user login information` and no token is issued. -/
theorem c5_update_failure_asymmetry (svc : TokenService) (email password : Str)
    (now : Int) (u : User) (updA updB : User → Bool)
    (he : email ≠ []) (hp : password ≠ []) :
    (∀ errMsg, u.CanLogin now = some errMsg →
      Authenticate svc (.found u) updA email password now = .error errMsg ∧
      Authenticate svc (.found u) updA email password now =
        Authenticate svc (.found u) updB email password now) ∧
    (u.CanLogin now = none → u.VerifyPasswordString password = false →
      Authenticate svc (.found u) updA email password now =
        .error invalidCredentialsMsg ∧
      Authenticate svc (.found u) updA email password now =
        Authenticate svc (.found u) updB email password now) ∧
    (u.CanLogin now = none → u.VerifyPasswordString password = true →
      updA (u.RecordSuccessfulLogin now) = false →
      Authenticate svc (.found u) updA email password now =
        .error updateFailedMsg) := by
  refine ⟨?_, ?_, ?_⟩
  · intro errMsg hcl
    constructor <;> simp [Authenticate, he, hp, hcl]
  · intro hcl hvp
    constructor <;> simp [Authenticate, he, hp, hcl, hvp]
  · intro hcl hvp hupd
    simp [Authenticate, he, hp, hcl, hvp, hupd]

theorem c5_update_failure_asymmetry_witness :
    Authenticate svcFixture (.found userFixture) (fun _ => false) "a@b.c".data
      (bcryptGenerate "abc".data) 0 = .error updateFailedMsg :=
  (c5_update_failure_asymmetry svcFixture "a@b.c".data
      (bcryptGenerate "abc".data) 0 userFixture (fun _ => false)
      (fun _ => false) (by decide) (by decide)).2.2 rfl (by decide) rfl

/-- C5 counterexample to the claim as stated: the surfaced message on the
success-bookkeeping path is `failed to update user login information`,
which differs from the claimed literal `failed to update login info`. -/
theorem c5_update_failure_asymmetry_counterexample :
    Authenticate svcFixture (.found userFixture) (fun _ => false) "a@b.c".data
      (bcryptGenerate "abc".data) 0 = .error updateFailedMsg ∧
    updateFailedMsg ≠ "failed to update login info".data := by
  constructor
  · rfl
  · decide

/-- C6 counterexample to the claim as stated: on the empty password the
source returns the dedicated `password cannot be empty` message, which is
not the message of the first failing rule (length-min) of the claimed
fixed order. -/
theorem c6_password_rule_order_counterexample :
    validatePassword [] ≠ firstFailingRuleMessage [] := by decide

/-- C6 (amended): for every non-empty raw password, validation evaluates
its rules in the fixed order length-min, length-max, uppercase, lowercase,
digit, special-char, weak-pattern, sequential-pattern and returns the
message of the first failing rule; in particular `password` fails with the
uppercase-letter message.  The empty password alone is answered by a
dedicated `password cannot be empty` message instead of the length-min
message. -/
theorem c6_password_rule_order :
    (∀ p : Str, p ≠ [] → validatePassword p = firstFailingRuleMessage p) ∧
    validatePassword "password".data = some errPasswordUpper := by
  constructor
  · intro p hp
    by_cases h1 : p.length < 8
    · simp [validatePassword, firstFailingRuleMessage, claimedPasswordRules,
        List.find?, hp, h1]
    by_cases h2 : 60 < p.length
    · simp [validatePassword, firstFailingRuleMessage, claimedPasswordRules,
        List.find?, hp, h1, h2]
    cases h3 : p.any isUpperAscii with
    | false =>
      simp [validatePassword, firstFailingRuleMessage, claimedPasswordRules,
        List.find?, hp, h1, h2, h3]
    | true =>
    cases h4 : p.any unicodeIsLower with
    | false =>
      simp [validatePassword, firstFailingRuleMessage, claimedPasswordRules,
        List.find?, hp, h1, h2, h3, h4]
    | true =>
    cases h5 : p.any unicodeIsDigit with
    | false =>
      simp [validatePassword, firstFailingRuleMessage, claimedPasswordRules,
        List.find?, hp, h1, h2, h3, h4, h5]
    | true =>
    cases h6 : p.any isSpecialGoChar with
    | false =>
      simp [validatePassword, firstFailingRuleMessage, claimedPasswordRules,
        List.find?, hp, h1, h2, h3, h4, h5, h6]
    | true =>
    by_cases h7 : (p.map unicodeToLower) ∈ weakPatterns
    · simp [validatePassword, firstFailingRuleMessage, claimedPasswordRules,
        checkWeakPatterns, List.find?, hp, h1, h2, h3, h4, h5, h6, h7]
    cases h8 : isSequential p with
    | true =>
      simp [validatePassword, firstFailingRuleMessage, claimedPasswordRules,
        checkWeakPatterns, List.find?, hp, h1, h2, h3, h4, h5, h6, h7, h8]
    | false =>
      simp [validatePassword, firstFailingRuleMessage, claimedPasswordRules,
        checkWeakPatterns, List.find?, hp, h1, h2, h3, h4, h5, h6, h7, h8]
  · decide

theorem c6_password_rule_order_witness :
    validatePassword "password".data = firstFailingRuleMessage "password".data :=
  c6_password_rule_order.1 "password".data (by decide)

/-! ## Shared helper lemmas about created tokens -/

theorem claimsValid_createdClaims (s : TokenService) (userID email : Str)
    (now tv : Int) (h1 : now ≤ tv) (h2 : tv ≤ now + s.tokenExpiration) :
    claimsValid (createdClaims s userID email now) tv = true := by
  simp [claimsValid, createdClaims, h1, h2]

theorem ValidateToken_created (s : TokenService) (userID email : Str)
    (now tv : Int) (h1 : now ≤ tv) (h2 : tv ≤ now + s.tokenExpiration) :
    s.ValidateToken (serializeJwt (createdJwt s userID email now)) tv =
      .ok (createdClaims s userID email now) := by
  rw [TokenService.ValidateToken, if_neg (serializeJwt_ne_nil _),
    stripBearer_serializeJwt, parseWithClaimsHMAC_serialized,
    validateParsedHMAC_ok _ _ _ rfl
      (claimsValid_createdClaims s userID email now tv h1 h2) rfl]
  rfl

theorem ValidateToken_created_bearer (s : TokenService) (userID email : Str)
    (now tv : Int) (h1 : now ≤ tv) (h2 : tv ≤ now + s.tokenExpiration) :
    s.ValidateToken (bearerTag ++ serializeJwt (createdJwt s userID email now)) tv =
      .ok (createdClaims s userID email now) := by
  rw [TokenService.ValidateToken, if_neg (by simp [bearerTag]),
    stripBearer_bearer_append _ (serializeJwt_ne_nil _),
    parseWithClaimsHMAC_serialized,
    validateParsedHMAC_ok _ _ _ rfl
      (claimsValid_createdClaims s userID email now tv h1 h2) rfl]
  rfl

theorem CreateToken_ok (s : TokenService) (userID email : Str) (now : Int)
    (hu : userID ≠ []) (he : email ≠ []) :
    s.CreateToken userID email now =
      .ok (serializeJwt (createdJwt s userID email now)) := by
  rw [TokenService.CreateToken, if_neg hu, if_neg he]

/-- C2: for every non-empty user id and email, a token created at time `now`
validates at any time `tv` within the configured lifetime window, and the
returned claims carry the same user id and email. -/
theorem c2_token_round_trip (s : TokenService) (userID email : Str)
    (now tv : Int) (hu : userID ≠ []) (he : email ≠ [])
    (h1 : now ≤ tv) (h2 : tv ≤ now + s.tokenExpiration) :
    ∃ tok, s.CreateToken userID email now = .ok tok ∧
      ∃ cl, s.ValidateToken tok tv = .ok cl ∧
        cl.UserID = userID ∧ cl.Email = email := by
  exact ⟨serializeJwt (createdJwt s userID email now),
    CreateToken_ok s userID email now hu he,
    createdClaims s userID email now,
    ValidateToken_created s userID email now tv h1 h2, rfl, rfl⟩

theorem c2_token_round_trip_witness :
    ∃ tok, svcFixture.CreateToken "u1".data "e@x.com".data 0 = .ok tok ∧
      ∃ cl, svcFixture.ValidateToken tok 600 = .ok cl ∧
        cl.UserID = "u1".data ∧ cl.Email = "e@x.com".data :=
  c2_token_round_trip svcFixture "u1".data "e@x.com".data 0 600
    (by decide) (by decide) (by decide) (by decide)

/-- C3: a token whose header declares a signing algorithm outside the
symmetric HMAC family is rejected by ValidateToken with an error, whatever
its claims and signature. -/
theorem c3_reject_non_hmac_alg (s : TokenService) (tok : Jwt) (now : Int)
    (halg : tok.alg ∉ hmacAlgs) :
    ∃ e, s.ValidateToken (serializeJwt tok) now = .error e := by
  rw [TokenService.ValidateToken, if_neg (serializeJwt_ne_nil _),
    stripBearer_serializeJwt, parseWithClaimsHMAC_serialized, validateParsedHMAC]
  by_cases hk : tok.alg ∈ knownAlgs
  · rw [if_neg (not_not_intro hk), if_pos halg]
    exact ⟨_, rfl⟩
  · rw [if_pos hk]
    exact ⟨_, rfl⟩

theorem c3_reject_non_hmac_alg_witness :
    ∃ e, svcFixture.ValidateToken (serializeJwt rs256Jwt) 0 = .error e :=
  c3_reject_non_hmac_alg svcFixture rs256Jwt 0 (by decide)

/-- C7: for a valid unexpired token issued by the token service, validation
of the raw token and of the token with the exact 7-character `Bearer `
marker prepended both succeed with the same claims: the marker, when
present, is stripped before parsing, and an input without it is parsed
as-is. -/
theorem c7_bearer_tolerance (s : TokenService) (userID email : Str)
    (now tv : Int) (tok : Str) (hu : userID ≠ []) (he : email ≠ [])
    (h1 : now ≤ tv) (h2 : tv ≤ now + s.tokenExpiration)
    (htok : s.CreateToken userID email now = .ok tok) :
    s.ValidateToken (bearerTag ++ tok) tv = s.ValidateToken tok tv ∧
    s.ValidateToken tok tv = .ok (createdClaims s userID email now) := by
  rw [CreateToken_ok s userID email now hu he] at htok
  have htok' : tok = serializeJwt (createdJwt s userID email now) :=
    (Except.ok.inj htok).symm
  subst htok'
  exact ⟨(ValidateToken_created_bearer s userID email now tv h1 h2).trans
      (ValidateToken_created s userID email now tv h1 h2).symm,
    ValidateToken_created s userID email now tv h1 h2⟩

theorem c7_bearer_tolerance_witness :
    svcFixture.ValidateToken
        (bearerTag ++ serializeJwt (createdJwt svcFixture "u1".data "e@x.com".data 0)) 600 =
      svcFixture.ValidateToken
        (serializeJwt (createdJwt svcFixture "u1".data "e@x.com".data 0)) 600 :=
  (c7_bearer_tolerance svcFixture "u1".data "e@x.com".data 0 600
    (serializeJwt (createdJwt svcFixture "u1".data "e@x.com".data 0))
    (by decide) (by decide) (by decide) (by decide) rfl).1

/-! ## Helper lemmas about the mangled legacy parse -/

theorem parseJwt_drop7_hs256 (c : TokenClaims) (g : Nat) :
    parseJwt (((encStr "HS256".data ++ '.' :: encClaims c) ++
      '.' :: encNat g).drop 7) = none := by
  have h7 : (7 : Nat) ≤ (encStr "HS256".data).length := by decide
  rw [List.append_assoc, List.drop_append_of_le_length h7, List.cons_append]
  have hno : '.' ∉ ((encStr "HS256".data).drop 7) := by decide
  rw [parseJwt, splitOnChar_append '.' _ _ hno,
    splitOnChar_append '.' _ _ (not_dot_mem_encClaims c),
    splitOnChar_of_not_mem '.' _ (not_dot_mem_encNat g)]
  have hdec : decStr ((encStr "HS256".data).drop 7) = none := by decide
  simp [hdec]

theorem parseJwt_drop7_created (s : TokenService) (userID email : Str) (now : Int) :
    parseJwt ((serializeJwt (createdJwt s userID email now)).drop 7) = none := by
  have he : serializeJwt (createdJwt s userID email now) =
      (encStr "HS256".data ++ '.' :: encClaims (createdClaims s userID email now)) ++
        '.' :: encNat (createdJwt s userID email now).sig := rfl
  rw [he]
  exact parseJwt_drop7_hs256 (createdClaims s userID email now)
    (createdJwt s userID email now).sig

theorem serializeJwt_created_length (s : TokenService) (userID email : Str)
    (now : Int) : 30 ≤ (serializeJwt (createdJwt s userID email now)).length := by
  have he : serializeJwt (createdJwt s userID email now) =
      (encStr "HS256".data ++ '.' :: encClaims (createdClaims s userID email now)) ++
        '.' :: encNat (createdJwt s userID email now).sig := rfl
  have h30 : (encStr "HS256".data).length = 30 := by decide
  rw [he, List.length_append, List.length_append, h30]
  omega

/-- C9: the legacy validator slices off the first 7 characters of its input
unconditionally: every input shorter than 7 characters makes the slice
panic (modeled as `none`), and a raw token issued by the token service,
carried without the `Bearer ` marker, has the first 7 characters of the
token itself discarded and therefore never validates. -/
theorem c9_legacy_unconditional_strip :
    (∀ (secret t : Str) (now : Int), t.length < 7 →
      LegacyValidateToken secret t now = none) ∧
    (∀ (s : TokenService) (userID email : Str) (now tv : Int) (tok : Str),
      userID ≠ [] → email ≠ [] → s.CreateToken userID email now = .ok tok →
      ∃ e, LegacyValidateToken s.secretKey tok tv = some (.error e)) := by
  constructor
  · intro secret t now h
    rw [LegacyValidateToken, if_pos h]
  · intro s userID email now tv tok hu he htok
    rw [CreateToken_ok s userID email now hu he] at htok
    have htok' : tok = serializeJwt (createdJwt s userID email now) :=
      (Except.ok.inj htok).symm
    subst htok'
    have hlen : ¬ (serializeJwt (createdJwt s userID email now)).length < 7 := by
      have := serializeJwt_created_length s userID email now
      omega
    rw [LegacyValidateToken, if_neg hlen, parseLegacyKeyfunc,
      parseJwt_drop7_created s userID email now]
    exact ⟨_, rfl⟩

theorem c9_legacy_unconditional_strip_witness :
    LegacyValidateToken "test-secret".data "abc".data 0 = none ∧
    ∃ e, LegacyValidateToken svcFixture.secretKey
        (serializeJwt (createdJwt svcFixture "u1".data "e@x.com".data 0)) 0 =
      some (.error e) :=
  ⟨c9_legacy_unconditional_strip.1 "test-secret".data "abc".data 0 (by decide),
   c9_legacy_unconditional_strip.2 svcFixture "u1".data "e@x.com".data 0 0 _
     (by decide) (by decide)
     (CreateToken_ok svcFixture "u1".data "e@x.com".data 0 (by decide) (by decide))⟩
